import Mathlib

/-!
Formal model of the MORK playground client/session protocol.

`src/playground.py` is a demo driver over an external MORK client
(`from client import MORK`); the client core itself (Session, RequestHandle,
SessionScope) is not part of the source tree, so the session, request and
namespace semantics below are modelled from the specification, while
`run_all`, the per-demo request-kind sequences and `safe_print` are embedded
directly from `playground.py`.
-/

namespace MorkSpec

/-- Namespace path: the ordered sequence of namespace segments from root. -/
abbrev Path := List String

/-- Modelled from the spec: tokens of the s-expression-like fact language
(glossary, §4.1 `transform`): a constant symbol or a pattern variable. -/
inductive Term where
  | const (s : String)
  | var (v : String)
deriving DecidableEq

/-- Modelled from the spec: a fact is one stored structured item, here a flat
list of tokens; facts coming from `upload` are ground (no variables). -/
abbrev Fact := List Term

/-- Modelled from the spec: the server-side data store, mapping each namespace
path to the set of facts stored exactly at that path (§3 namespace
composition rule: a parent's view is never widened by a child's data). -/
abbrev Store := Path → Finset Fact

/-- Boolean test that path `p` is a prefix of path `q`, i.e. `q` lies under
the namespace `p`. -/
def isUnder : Path → Path → Bool
  | [], _ => true
  | _ :: _, [] => false
  | a :: as, b :: bs => a == b && isUnder as bs

/-- Modelled from the spec: `download()` requests a full dump of the facts
currently stored in this session's namespace (§4.1). -/
def downloadStore (st : Store) (p : Path) : Finset Fact := st p

/-- Modelled from the spec: `download()` as a state transition; it is a pure
query, returning the store unchanged together with the dumped fact set. -/
def downloadOp (st : Store) (p : Path) : Store × Finset Fact := (st, st p)

/-- Modelled from the spec: `upload(exprText)` merges the submitted facts into
this session's namespace (§4.1); other paths are untouched. -/
def uploadStore (p : Path) (fs : List Fact) (st : Store) : Store :=
  fun q => if q = p then st q ∪ fs.toFinset else st q

/-- Modelled from the spec: `clear()` deletes all facts under this session's
namespace, not affecting sibling or parent namespaces (§4.1). -/
def clearStore (p : Path) (st : Store) : Store :=
  fun q => if isUnder p q then (∅ : Finset Fact) else st q

/-- A sequence of `upload` calls on the same session, applied in order. -/
def uploadSeq (p : Path) (batches : List (List Fact)) (st : Store) : Store :=
  batches.foldl (fun acc b => uploadStore p b acc) st

/-! Pattern matching and transforms, modelled from §4.1 `transform` and the
glossary: a rewrite rule matches stored facts against a pattern with
variables and replaces matches with a template under the same bindings. -/

/-- Variable bindings accumulated while matching a pattern. -/
abbrev Binding := List (String × Term)

/-- Look a variable up in a binding list. -/
def bindLookup (b : Binding) (v : String) : Option Term :=
  match b with
  | [] => none
  | (w, t) :: rest => if w = v then some t else bindLookup rest v

/-- Match one pattern token against one fact token, threading bindings; a
variable seen twice must be bound consistently. -/
def matchTerm (b : Binding) : Term → Term → Option Binding
  | Term.const c, Term.const d => if c = d then some b else none
  | Term.const _, Term.var _ => none
  | Term.var v, t =>
      match bindLookup b v with
      | some t2 => if t2 = t then some b else none
      | none => some ((v, t) :: b)

/-- Match a whole pattern against a whole fact, position by position. -/
def matchList : Binding → List Term → List Term → Option Binding
  | b, [], [] => some b
  | b, p :: ps, t :: ts =>
      match matchTerm b p t with
      | some b2 => matchList b2 ps ts
      | none => none
  | _, _, _ => none

/-- Match a pattern against a fact starting from the empty binding. -/
def matchPat (pat fact : Fact) : Option Binding := matchList [] pat fact

/-- Substitute bound variables in a template token. -/
def substTerm (b : Binding) : Term → Term
  | Term.const c => Term.const c
  | Term.var v =>
      match bindLookup b v with
      | some t => t
      | none => Term.var v

/-- Instantiate a template with the bindings carried from its pattern. -/
def instantiate (tmpl : Fact) (b : Binding) : Fact := tmpl.map (substTerm b)

/-- First pattern/template rule whose pattern matches the fact, with the
bindings the match produced. -/
def firstMatch : List (Fact × Fact) → Fact → Option (Fact × Binding)
  | [], _ => none
  | (pat, tmpl) :: rest, f =>
      match matchPat pat f with
      | some b => some (tmpl, b)
      | none => firstMatch rest f

/-- Modelled from the spec: the server rewrites every stored fact matching any
pattern into the corresponding template, bindings carried over; a fact
matching no pattern is kept (§4.1 `transform`). -/
def rewriteFact (rules : List (Fact × Fact)) (f : Fact) : Fact :=
  match firstMatch rules f with
  | some (tmpl, b) => instantiate tmpl b
  | none => f

/-- One completed `transform(P, T)` pass over a namespace's fact set. -/
def transformSet (P T : List Fact) (S : Finset Fact) : Finset Fact :=
  S.image (rewriteFact (P.zip T))

/-- `transform(P, T)` as a store transition on the issuing session's path. -/
def transformStore (p : Path) (P T : List Fact) (st : Store) : Store :=
  fun q => if q = p then transformSet P T (st q) else st q

/-- A pattern/template position that can never agree: both tokens are
constants and they differ. -/
def badPair : Term × Term → Bool
  | (Term.const c, Term.const d) => !(c == d)
  | _ => false

/-- Decidable sufficient condition for the spec's "disjoint in pattern shape":
the pattern can match no instance of the template, because the lengths differ
or some position holds two distinct constants. -/
def shapeDisjoint (pat tmpl : Fact) : Bool :=
  !(pat.length == tmpl.length) || (pat.zip tmpl).any badPair

/-- Every pattern of `P` is shape-disjoint from every template of `T`. -/
def disjointAll (P T : List Fact) : Bool :=
  P.all fun pat => T.all fun tmpl => shapeDisjoint pat tmpl

/-! Request handles and their completion protocol, modelled from §3 and §4.2. -/

/-- Modelled from the spec: the kinds of server requests (§3). -/
inductive ReqKind where
  | upload
  | download
  | transform
  | exec
  | explore
  | importFrom
  | exportTo
  | clear
  | stop
  | status
deriving DecidableEq

/-- Modelled from the spec: the request lifecycle states (§3). -/
inductive ReqState where
  | pending
  | running
  | completed
  | failed
deriving DecidableEq

/-- Completed or Failed: once reached, a request's outcome is fixed. -/
def ReqState.isTerminal : ReqState → Bool
  | ReqState.completed => true
  | ReqState.failed => true
  | _ => false

/-- Modelled from the spec: one status event or poll response delivered by the
completion-tracking mechanism (§6 `requestStatus`, `openEventStream`). -/
structure StatusEvent where
  state : ReqState
  result : Option String
  errorInfo : Option String
deriving DecidableEq

/-- Modelled from the spec: a `RequestHandle`, one in-flight or completed
asynchronous server operation (§3). -/
structure RequestHandle where
  id : Nat
  kind : ReqKind
  submittedAt : Nat
  state : ReqState
  result : Option String
  errorInfo : Option String
deriving DecidableEq

/-- Modelled from the spec: how the completion-tracking mechanism applies a
status event or poll response to a handle; a handle whose state is already
terminal is immutable (§3 invariant). -/
def applyStatusEvent (h : RequestHandle) (ev : StatusEvent) : RequestHandle :=
  if h.state.isTerminal then h
  else
    match ev.state with
    | ReqState.completed => { h with state := ReqState.completed, result := ev.result }
    | ReqState.failed => { h with state := ReqState.failed, errorInfo := ev.errorInfo }
    | s => { h with state := s }

/-- Polling loop of `block()`: consume one poll response per step until the
handle is terminal or the fuel (overall timeout) runs out. Returns the final
handle, its stored result, and the number of polls issued. -/
def blockAux (poll : Nat → StatusEvent) : Nat → Nat → RequestHandle →
    Except String (RequestHandle × Option String × Nat)
  | 0, _, _ => Except.error "TimeoutError"
  | Nat.succ fuel, polls, h =>
      let h2 := applyStatusEvent h (poll polls)
      if h2.state.isTerminal then Except.ok (h2, h2.result, polls + 1)
      else blockAux poll fuel (polls + 1) h2

/-- Modelled from the spec: `block()` repeatedly queries the server for this
request's status until the state is Completed or Failed, or an overall
timeout is reached (`TimeoutError`); once the handle is terminal it
immediately returns the stored result, issuing no further polls (§4.2). -/
def block (poll : Nat → StatusEvent) (fuel : Nat) (h : RequestHandle) :
    Except String (RequestHandle × Option String × Nat) :=
  if h.state.isTerminal then Except.ok (h, h.result, 0)
  else blockAux poll fuel 0 h

/-! Sessions and their request history, modelled from §3 and §4.1. -/

/-- Modelled from the spec: a `Session` bound to a namespace path, with its
append-only ordered history of the request handles it created (§3). -/
structure Session where
  basePath : Path
  nextId : Nat
  history : List RequestHandle

/-- The request-issuing operations of the `Session` surface (§4.1). -/
inductive SessionOp where
  | upload (fs : List Fact)
  | download
  | transform (ps ts : List Fact)
  | exec (threadId : String)
  | importFrom (uri : String)
  | exportTo (uri : String)
  | clear
  | stop

/-- The request kind each operation records on its handle. -/
def SessionOp.kind : SessionOp → ReqKind
  | SessionOp.upload _ => ReqKind.upload
  | SessionOp.download => ReqKind.download
  | SessionOp.transform _ _ => ReqKind.transform
  | SessionOp.exec _ => ReqKind.exec
  | SessionOp.importFrom _ => ReqKind.importFrom
  | SessionOp.exportTo _ => ReqKind.exportTo
  | SessionOp.clear => ReqKind.clear
  | SessionOp.stop => ReqKind.stop

/-- Modelled from the spec: invoking a request-issuing operation creates a new
`RequestHandle` (initially Pending) and appends it to the issuing session's
history; `basePath` is immutable (§3, §4.1). -/
def issueOp (s : Session) (op : SessionOp) (now : Nat) : Session × RequestHandle :=
  let h : RequestHandle :=
    { id := s.nextId, kind := op.kind, submittedAt := now,
      state := ReqState.pending, result := none, errorInfo := none }
  ({ s with nextId := s.nextId + 1, history := s.history ++ [h] }, h)

/-- Issue a whole sequence of operations on one session, in order. -/
def issueOps (s : Session) (ops : List (SessionOp × Nat)) : Session :=
  ops.foldl (fun acc onow => (issueOp acc onow.1 onow.2).1) s

/-! Session scopes, modelled from §3 and §4.4. -/

/-- Modelled from the spec: a `SessionScope` wraps a session's namespace path
with an `autoClear` flag (§3). -/
structure SessionScope where
  path : Path
  autoClear : Bool

/-- Modelled from the spec: `release()` runs on every exit path; if
`autoClear` it synchronously issues `clear()` for the scope's namespace and
awaits it before returning (§4.4). Returns the resulting store and the list
of request kinds issued during release. -/
def releaseScope (sc : SessionScope) (st : Store) : Store × List ReqKind :=
  if sc.autoClear then (clearStore sc.path st, [ReqKind.clear]) else (st, [])

/-- Modelled from the spec: run a scoped body, then release the scope exactly
once whether the body ended normally (`none`) or exceptionally (`some err`);
an error from the body propagates but does not prevent release (§4.4, §7). -/
def runScope (sc : SessionScope) (body : Store → Store × Option String)
    (st : Store) : Store × Option String × List ReqKind :=
  let r := body st
  let rel := releaseScope sc r.1
  (rel.1, r.2, rel.2)

/-! The demo runner and driver helpers, embedded from `src/playground.py`. -/

/-- Observable events of one `run_all()` execution: a demo function call, the
failure message printed by the except branch, and a `time.sleep` (in
milliseconds, so 0.35 s is 350). -/
inductive RunEvent where
  | call (demo : String)
  | printFailure (demo msg : String)
  | sleep (ms : Nat)
deriving DecidableEq

/-- The demo list of `run_all` (`src/playground.py`, lines 209-222), in
source order. -/
def demoList : List String :=
  ["demo_1_connect_and_status",
   "demo_2_upload_and_download",
   "demo_3_csv_import_via_python",
   "demo_4_transform_simple",
   "demo_5_nested_workspaces_and_clear",
   "demo_6_explore_values_and_levels",
   "demo_7_exec_thread_and_transform_exec",
   "demo_8_import_from_url_and_listen",
   "demo_9_export_to_file",
   "demo_10_clear_and_stop_server",
   "demo_11_history_and_inspect_requests",
   "demo_12_concurrent_playground_small_pool"]

/-- One iteration of the `run_all` loop (`src/playground.py`, lines 224-229):
call the demo, print its failure message if it raised (the try/except), then
sleep 0.35 s regardless of the outcome. `f` gives each demo's outcome. -/
def demoTrace (f : String → Except String Unit) (d : String) : List RunEvent :=
  RunEvent.call d ::
    ((match f d with
      | Except.ok _ => []
      | Except.error e => [RunEvent.printFailure d e]) ++ [RunEvent.sleep 350])

/-- The `run_all` loop over an arbitrary suffix of the demo list. -/
def runDemos (f : String → Except String Unit) : List String → List RunEvent
  | [] => []
  | d :: ds => demoTrace f d ++ runDemos f ds

/-- `run_all()` (`src/playground.py`, lines 208-229): attempt every demo in
listed order, catching any exception a demo raises. -/
def run_all (f : String → Except String Unit) : List RunEvent :=
  runDemos f demoList

/-- The demo names appearing as call events in a trace, in order. -/
def callsOf (tr : List RunEvent) : List String :=
  tr.filterMap fun e =>
    match e with
    | RunEvent.call d => some d
    | _ => none

/-- A trace with the failure-print events removed. -/
def stripFailures (tr : List RunEvent) : List RunEvent :=
  tr.filter fun e =>
    match e with
    | RunEvent.printFailure _ _ => false
    | _ => true

/-- The kinds of the session requests each demo body issues, read off the
uncommented calls in `src/playground.py` (auto-clear requests from
`and_clear()` scope exits included, `demo_12`'s loop unrolled to its four
iterations, `demo_6`'s node dispatches represented by their `explore` kind).
The one `stop()` call in the source, inside `demo_10_clear_and_stop_server`
(line 175), is commented out and therefore absent. -/
def demoSuite : List (String × List ReqKind) :=
  [("demo_1_connect_and_status", [ReqKind.download]),
   ("demo_2_upload_and_download", [ReqKind.upload, ReqKind.download, ReqKind.clear]),
   ("demo_3_csv_import_via_python", [ReqKind.upload, ReqKind.download, ReqKind.clear]),
   ("demo_4_transform_simple",
    [ReqKind.upload, ReqKind.transform, ReqKind.download, ReqKind.clear]),
   ("demo_5_nested_workspaces_and_clear",
    [ReqKind.upload, ReqKind.upload, ReqKind.download, ReqKind.download,
     ReqKind.clear, ReqKind.download, ReqKind.clear]),
   ("demo_6_explore_values_and_levels",
    [ReqKind.upload, ReqKind.explore, ReqKind.clear]),
   ("demo_7_exec_thread_and_transform_exec",
    [ReqKind.upload, ReqKind.transform, ReqKind.exec, ReqKind.download, ReqKind.clear]),
   ("demo_8_import_from_url_and_listen",
    [ReqKind.importFrom, ReqKind.download, ReqKind.clear]),
   ("demo_9_export_to_file", [ReqKind.upload, ReqKind.exportTo, ReqKind.clear]),
   ("demo_10_clear_and_stop_server",
    [ReqKind.upload, ReqKind.download, ReqKind.clear, ReqKind.download]),
   ("demo_11_history_and_inspect_requests", [ReqKind.upload, ReqKind.download]),
   ("demo_12_concurrent_playground_small_pool",
    [ReqKind.upload, ReqKind.download, ReqKind.clear,
     ReqKind.upload, ReqKind.download, ReqKind.clear,
     ReqKind.upload, ReqKind.download, ReqKind.clear,
     ReqKind.upload, ReqKind.download, ReqKind.clear, ReqKind.download])]

/-! `safe_print`, embedded from `src/playground.py`, lines 35-47. -/

/-- A payload as `safe_print` can observe it: the outcome of accessing and
printing `payload.data` (an absent attribute or a raising access appears as
an error), and the outcome of printing the payload object itself (its string
conversion may raise too). -/
structure Payload where
  printData : Except String String
  printSelf : Except String String

/-- The 40-character separator `"=" * 40` printed by `safe_print`. -/
def eqSep : String := "========================================"

/-- The 40-character separator `"-" * 40` printed by `safe_print`. -/
def dashSep : String := "----------------------------------------"

/-- `safe_print(title, payload)` (`src/playground.py`, lines 35-47), as the
list of lines it prints, or the exception it lets escape: `"(None)"` for a
`None` payload; otherwise `payload.data` when accessing and printing it
succeeds; otherwise the payload itself, whose own printing may still raise,
in which case that exception propagates and the closing separator is never
printed. -/
def safe_print (title : String) (payload : Option Payload) :
    Except String (List String) :=
  let pre : List String := [eqSep, title, dashSep]
  match payload with
  | none => Except.ok (pre ++ ["(None)", eqSep])
  | some p =>
      match p.printData with
      | Except.ok d => Except.ok (pre ++ [d, eqSep])
      | Except.error _ =>
          match p.printSelf with
          | Except.ok s => Except.ok (pre ++ [s, eqSep])
          | Except.error e2 => Except.error e2

/-! Concrete inputs used by the witnesses. -/

/-- The empty server store. -/
def stEmpty : Store := fun _ => (∅ : Finset Fact)

/-- A concrete namespace path. -/
def pW : Path := ["playground"]

/-- Two concrete upload batches. -/
def batchesW : List (List Fact) :=
  [[[Term.const "foo", Term.const "1"], [Term.const "foo", Term.const "2"]],
   [[Term.const "bar", Term.const "3"]]]

/-- A concrete pattern list, the shape of `("(foo $x)",)`. -/
def patW : List Fact := [[Term.const "foo", Term.var "x"]]

/-- A concrete template list, the shape of `("(baz $x)",)`. -/
def tmplW : List Fact := [[Term.const "baz", Term.var "x"]]

/-- A concrete fact set to transform. -/
def setW : Finset Fact :=
  ([[Term.const "foo", Term.const "1"],
    [Term.const "foo", Term.const "2"],
    [Term.const "bar", Term.const "5"]] : List Fact).toFinset

/-- A concrete scope with auto-clear set. -/
def scW : SessionScope := { path := ["inner"], autoClear := true }

/-- A concrete scope body that mutates the namespace and then fails. -/
def bodyW : Store → Store × Option String :=
  fun st => (uploadStore ["inner"] [[Term.const "inner", Term.const "1"]] st,
             some "demo failure")

/-- A concrete terminal (Completed) request handle. -/
def handleW : RequestHandle :=
  { id := 7, kind := ReqKind.transform, submittedAt := 3,
    state := ReqState.completed, result := some "done", errorInfo := none }

/-- A concrete late status event that must not affect a terminal handle. -/
def eventW : StatusEvent :=
  { state := ReqState.failed, result := none, errorInfo := some "late failure" }

/-- A concrete poll stream. -/
def pollW : Nat → StatusEvent :=
  fun _ => { state := ReqState.running, result := none, errorInfo := none }

/-! Helper lemmas about paths and the store. -/

lemma isUnder_refl (p : Path) : isUnder p p = true := by
  induction p with
  | nil => rfl
  | cons a as ih => simp [isUnder, ih]

lemma isUnder_length : ∀ p q : Path, isUnder p q = true → p.length ≤ q.length := by
  intro p
  induction p with
  | nil => intro q _; simp
  | cons a as ih =>
      intro q hq
      cases q with
      | nil => simp [isUnder] at hq
      | cons b bs =>
          simp only [isUnder, Bool.and_eq_true] at hq
          have := ih bs hq.2
          simp [List.length_cons]
          omega

lemma isUnder_append_singleton (p : Path) (n : String) :
    isUnder (p ++ [n]) p = false := by
  cases h : isUnder (p ++ [n]) p with
  | false => rfl
  | true =>
      have := isUnder_length (p ++ [n]) p h
      simp at this

lemma ne_of_isUnder_false {p q : Path} (h : isUnder p q = false) : p ≠ q := by
  intro hpq
  subst hpq
  rw [isUnder_refl] at h
  exact Bool.noConfusion h

lemma append_singleton_ne (p : Path) (n : String) : p ++ [n] ≠ p := by
  intro h
  have := congrArg List.length h
  simp at this

lemma uploadSeq_at (p : Path) :
    ∀ (batches : List (List Fact)) (st : Store),
      uploadSeq p batches st p = st p ∪ batches.flatten.toFinset := by
  intro batches
  induction batches with
  | nil => intro st; simp [uploadSeq]
  | cons b bs ih =>
      intro st
      have hstep : uploadSeq p (b :: bs) st = uploadSeq p bs (uploadStore p b st) := rfl
      rw [hstep, ih]
      simp [uploadStore, List.toFinset_append, Finset.union_assoc]

/-- Claim C1: on a namespace that starts empty (a fresh session's scope),
every sequence of upload calls followed by a download returns exactly the
union of the uploaded facts — no fact is lost and no duplicate beyond what
was uploaded appears — download does not mutate the store, and repeating the
download with no intervening mutation yields the same set. -/
theorem upload_download_exact (st : Store) (p : Path) (batches : List (List Fact))
    (h : st p = ∅) :
    (downloadOp (uploadSeq p batches st) p).2 = batches.flatten.toFinset ∧
    (downloadOp (uploadSeq p batches st) p).1 = uploadSeq p batches st ∧
    (downloadOp (downloadOp (uploadSeq p batches st) p).1 p).2 =
      (downloadOp (uploadSeq p batches st) p).2 := by
  refine ⟨?_, rfl, rfl⟩
  show uploadSeq p batches st p = batches.flatten.toFinset
  rw [uploadSeq_at, h, Finset.empty_union]

/-- Witness for C1 at a concrete empty store, path and upload batches. -/
theorem upload_download_exact_witness :
    stEmpty pW = ∅ ∧
    ((downloadOp (uploadSeq pW batchesW stEmpty) pW).2 = batchesW.flatten.toFinset ∧
     (downloadOp (uploadSeq pW batchesW stEmpty) pW).1 = uploadSeq pW batchesW stEmpty ∧
     (downloadOp (downloadOp (uploadSeq pW batchesW stEmpty) pW).1 pW).2 =
       (downloadOp (uploadSeq pW batchesW stEmpty) pW).2) :=
  ⟨rfl, upload_download_exact stEmpty pW batchesW rfl⟩

/-- Claim C2: facts uploaded at a child path `p ++ [n]` are absent from the
parent's download at `p` and vice versa; clearing the child never affects the
parent's data; and any mutating request issued at a path `pp` (upload, clear,
transform) leaves every path `q` not under `pp` unchanged. -/
theorem namespace_isolation (st : Store) (p : Path) (n : String)
    (fs gs : List Fact) (P T : List Fact) (pp q : Path)
    (hq : isUnder pp q = false) :
    downloadStore (uploadStore (p ++ [n]) fs st) p = downloadStore st p ∧
    downloadStore (uploadStore p gs st) (p ++ [n]) = downloadStore st (p ++ [n]) ∧
    downloadStore (clearStore (p ++ [n]) st) p = downloadStore st p ∧
    uploadStore pp fs st q = st q ∧
    clearStore pp st q = st q ∧
    transformStore pp P T st q = st q := by
  have hne : p ≠ p ++ [n] := fun hcontra => append_singleton_ne p n hcontra.symm
  have hqpp : q ≠ pp := fun hcontra => ne_of_isUnder_false hq hcontra.symm
  refine ⟨?_, ?_, ?_, ?_, ?_, ?_⟩
  · simp [downloadStore, uploadStore, hne]
  · simp [downloadStore, uploadStore, append_singleton_ne p n]
  · simp [downloadStore, clearStore, isUnder_append_singleton p n]
  · simp [uploadStore, hqpp]
  · simp [clearStore, hq]
  · simp [transformStore, hqpp]

/-- Witness for C2 at concrete parent path, child segment, facts and store. -/
theorem namespace_isolation_witness :
    isUnder (pW ++ ["inner"]) pW = false ∧
    (downloadStore (uploadStore (pW ++ ["inner"]) batchesW.flatten stEmpty) pW =
       downloadStore stEmpty pW ∧
     downloadStore (uploadStore pW patW stEmpty) (pW ++ ["inner"]) =
       downloadStore stEmpty (pW ++ ["inner"]) ∧
     downloadStore (clearStore (pW ++ ["inner"]) stEmpty) pW =
       downloadStore stEmpty pW ∧
     uploadStore (pW ++ ["inner"]) batchesW.flatten stEmpty pW = stEmpty pW ∧
     clearStore (pW ++ ["inner"]) stEmpty pW = stEmpty pW ∧
     transformStore (pW ++ ["inner"]) patW tmplW stEmpty pW = stEmpty pW) :=
  ⟨by decide, namespace_isolation stEmpty pW "inner" batchesW.flatten patW patW tmplW
    (pW ++ ["inner"]) pW (by decide)⟩

/-- Claim C3: releasing a scope with autoClear set issues the clear request
for the scope's namespace exactly once on every exit path, normal or
exceptional, the body's error still propagates, and a download on a fresh
session bound to the same namespace afterwards returns the empty set. -/
theorem auto_clear_on_release (sc : SessionScope)
    (body : Store → Store × Option String) (st : Store)
    (hac : sc.autoClear = true) :
    (runScope sc body st).2.2 = [ReqKind.clear] ∧
    downloadStore (runScope sc body st).1 sc.path = ∅ ∧
    (runScope sc body st).2.1 = (body st).2 := by
  refine ⟨?_, ?_, rfl⟩
  · simp [runScope, releaseScope, hac]
  · simp [runScope, releaseScope, hac, downloadStore, clearStore, isUnder_refl]

/-- Witness for C3 at a concrete auto-clear scope whose body uploads a fact
and then fails (the exceptional exit path). -/
theorem auto_clear_on_release_witness :
    scW.autoClear = true ∧
    ((runScope scW bodyW stEmpty).2.2 = [ReqKind.clear] ∧
     downloadStore (runScope scW bodyW stEmpty).1 scW.path = ∅ ∧
     (runScope scW bodyW stEmpty).2.1 = (bodyW stEmpty).2) :=
  ⟨rfl, auto_clear_on_release scW bodyW stEmpty rfl⟩

/-- Claim C4: once a request handle's state is terminal (Completed or
Failed), no later status event or poll response — nor any sequence of
them — changes the handle's state, result or error information. -/
theorem terminal_state_immutable (h : RequestHandle) (ev : StatusEvent)
    (evs : List StatusEvent) (ht : h.state.isTerminal = true) :
    applyStatusEvent h ev = h ∧ evs.foldl applyStatusEvent h = h := by
  have hone : ∀ e : StatusEvent, applyStatusEvent h e = h := by
    intro e
    simp [applyStatusEvent, ht]
  refine ⟨hone ev, ?_⟩
  induction evs with
  | nil => rfl
  | cons e es ih =>
      rw [List.foldl_cons, hone e]
      exact ih

/-- Witness for C4 at a concrete completed handle and a late failure event. -/
theorem terminal_state_immutable_witness :
    handleW.state.isTerminal = true ∧
    (applyStatusEvent handleW eventW = handleW ∧
     [eventW, eventW].foldl applyStatusEvent handleW = handleW) :=
  ⟨rfl, terminal_state_immutable handleW eventW [eventW, eventW] rfl⟩

/-- Claim C5: every request-issuing operation appends exactly one new handle,
of that operation's kind, to the issuing session's history, leaving the base
path untouched; over any sequence of operations the old history stays a
prefix (nothing is removed or reordered) and each operation contributes
exactly one entry, so insertion order equals creation order. -/
theorem history_append_only (s : Session) (op : SessionOp) (now : Nat)
    (ops : List (SessionOp × Nat)) :
    (issueOp s op now).1.history = s.history ++ [(issueOp s op now).2] ∧
    (issueOp s op now).2.kind = op.kind ∧
    (issueOp s op now).1.basePath = s.basePath ∧
    s.history <+: (issueOps s ops).history ∧
    (issueOps s ops).history.length = s.history.length + ops.length := by
  refine ⟨rfl, rfl, rfl, ?_, ?_⟩
  · induction ops generalizing s with
    | nil => exact List.prefix_rfl
    | cons onow rest ih =>
        have hstep : issueOps s (onow :: rest) =
            issueOps (issueOp s onow.1 onow.2).1 rest := rfl
        rw [hstep]
        have hpre : s.history <+: (issueOp s onow.1 onow.2).1.history :=
          ⟨[(issueOp s onow.1 onow.2).2], rfl⟩
        exact hpre.trans (ih (issueOp s onow.1 onow.2).1)
  · induction ops generalizing s with
    | nil => simp [issueOps]
    | cons onow rest ih =>
        have hstep : issueOps s (onow :: rest) =
            issueOps (issueOp s onow.1 onow.2).1 rest := rfl
        rw [hstep, ih]
        simp [issueOp]
        omega

/-- Claim C6: on a handle whose state is already terminal, `block()` returns
the stored result immediately, issuing zero status polls, and a second call
returns the identical stored result again — `block()` is idempotent once the
handle is terminal, whatever the poll stream or timeout budget. -/
theorem block_idempotent_on_terminal (h : RequestHandle)
    (poll poll2 : Nat → StatusEvent) (fuel fuel2 : Nat)
    (ht : h.state.isTerminal = true) :
    block poll fuel h = Except.ok (h, h.result, 0) ∧
    block poll2 fuel2 h = Except.ok (h, h.result, 0) := by
  constructor <;> simp [block, ht]

/-- Witness for C6 at a concrete completed handle and poll stream. -/
theorem block_idempotent_on_terminal_witness :
    handleW.state.isTerminal = true ∧
    (block pollW 5 handleW = Except.ok (handleW, handleW.result, 0) ∧
     block pollW 0 handleW = Except.ok (handleW, handleW.result, 0)) :=
  ⟨rfl, block_idempotent_on_terminal handleW pollW pollW 5 0 rfl⟩

/-! Lemmas on pattern matching, towards C7. -/

lemma matchList_none_of_length (pat : List Term) :
    ∀ (b : Binding) (fact : List Term),
      pat.length ≠ fact.length → matchList b pat fact = none := by
  induction pat with
  | nil =>
      intro b fact h
      cases fact with
      | nil => simp at h
      | cons f fs => rfl
  | cons p ps ih =>
      intro b fact h
      cases fact with
      | nil => rfl
      | cons f fs =>
          have h2 : ps.length ≠ fs.length := by
            simp only [List.length_cons] at h
            omega
          show (match matchTerm b p f with
                | some b2 => matchList b2 ps fs
                | none => none) = none
          cases matchTerm b p f with
          | none => rfl
          | some b2 => exact ih b2 fs h2

lemma mem_zip_map_right (σ : Term → Term) (x y : Term) :
    ∀ (l1 l2 : List Term), (x, y) ∈ l1.zip l2 → (x, σ y) ∈ l1.zip (l2.map σ) := by
  intro l1
  induction l1 with
  | nil => intro l2 hm; simp [List.zip] at hm
  | cons a as ih =>
      intro l2 hm
      cases l2 with
      | nil => simp [List.zip] at hm
      | cons b bs =>
          rw [List.zip_cons_cons] at hm
          rw [List.map_cons, List.zip_cons_cons]
          rcases List.mem_cons.mp hm with heq | htail
          · have hx : x = a := congrArg Prod.fst heq
            have hy : y = b := congrArg Prod.snd heq
            subst hx; subst hy
            exact List.mem_cons_self _ _
          · exact List.mem_cons_of_mem _ (ih bs htail)

lemma matchList_none_of_clash (c d : String) (hcd : ¬ c = d) :
    ∀ (pat fact : List Term) (b : Binding),
      (Term.const c, Term.const d) ∈ pat.zip fact → matchList b pat fact = none := by
  intro pat
  induction pat with
  | nil => intro fact b hm; simp [List.zip] at hm
  | cons p ps ih =>
      intro fact b hm
      cases fact with
      | nil => rfl
      | cons f fs =>
          rw [List.zip_cons_cons] at hm
          show (match matchTerm b p f with
                | some b2 => matchList b2 ps fs
                | none => none) = none
          rcases List.mem_cons.mp hm with heq | htail
          · have hp : p = Term.const c := (congrArg Prod.fst heq).symm
            have hf : f = Term.const d := (congrArg Prod.snd heq).symm
            subst hp; subst hf
            simp [matchTerm, hcd]
          · cases hmt : matchTerm b p f with
            | none => rfl
            | some b2 => exact ih fs b2 htail

lemma shapeDisjoint_no_match (pat tmpl : Fact)
    (h : shapeDisjoint pat tmpl = true) (b : Binding) :
    matchPat pat (instantiate tmpl b) = none := by
  rw [shapeDisjoint, Bool.or_eq_true] at h
  rcases h with hlen | hany
  · have hne : pat.length ≠ tmpl.length := by simpa using hlen
    have hlen2 : pat.length ≠ (instantiate tmpl b).length := by
      rw [instantiate, List.length_map]
      exact hne
    exact matchList_none_of_length pat [] (instantiate tmpl b) hlen2
  · rw [List.any_eq_true] at hany
    obtain ⟨pr, hmem, hbad⟩ := hany
    obtain ⟨x, y⟩ := pr
    cases x with
    | var v => simp [badPair] at hbad
    | const c =>
        cases y with
        | var v => simp [badPair] at hbad
        | const d =>
            have hcd : ¬ c = d := by simpa [badPair] using hbad
            have hmem2 : (Term.const c, substTerm b (Term.const d)) ∈
                pat.zip (tmpl.map (substTerm b)) :=
              mem_zip_map_right (substTerm b) _ _ pat tmpl hmem
            have hsub : substTerm b (Term.const d) = Term.const d := rfl
            rw [hsub] at hmem2
            exact matchList_none_of_clash c d hcd pat (instantiate tmpl b) [] hmem2

lemma firstMatch_none_of_all (f : Fact) :
    ∀ rules : List (Fact × Fact),
      (∀ r ∈ rules, matchPat r.1 f = none) → firstMatch rules f = none := by
  intro rules
  induction rules with
  | nil => intro _; rfl
  | cons r rs ih =>
      intro hall
      obtain ⟨pat, tmpl⟩ := r
      have hhead : matchPat pat f = none := hall (pat, tmpl) (List.mem_cons_self _ _)
      show (match matchPat pat f with
            | some b => some (tmpl, b)
            | none => firstMatch rs f) = none
      rw [hhead]
      exact ih fun r hr => hall r (List.mem_cons_of_mem _ hr)

lemma firstMatch_some_mem (f : Fact) (tmpl : Fact) (b : Binding) :
    ∀ rules : List (Fact × Fact),
      firstMatch rules f = some (tmpl, b) → ∃ pat, (pat, tmpl) ∈ rules := by
  intro rules
  induction rules with
  | nil => intro hcontra; simp [firstMatch] at hcontra
  | cons r rs ih =>
      intro hfm
      obtain ⟨p0, t0⟩ := r
      have hfm2 : (match matchPat p0 f with
            | some b0 => some (t0, b0)
            | none => firstMatch rs f) = some (tmpl, b) := hfm
      cases hmp : matchPat p0 f with
      | some b0 =>
          rw [hmp] at hfm2
          have ht : t0 = tmpl := congrArg Prod.fst (Option.some.inj hfm2)
          subst ht
          exact ⟨p0, List.mem_cons_self _ _⟩
      | none =>
          rw [hmp] at hfm2
          obtain ⟨pat, hmem⟩ := ih hfm2
          exact ⟨pat, List.mem_cons_of_mem _ hmem⟩

lemma disjointAll_spec {P T : List Fact} (h : disjointAll P T = true) :
    ∀ pat ∈ P, ∀ tmpl ∈ T, shapeDisjoint pat tmpl = true := by
  rw [disjointAll, List.all_eq_true] at h
  intro pat hp tmpl ht
  have := h pat hp
  rw [List.all_eq_true] at this
  exact this tmpl ht

lemma rewriteFact_idem (P T : List Fact) (h : disjointAll P T = true) (f : Fact) :
    rewriteFact (P.zip T) (rewriteFact (P.zip T) f) = rewriteFact (P.zip T) f := by
  cases hfm : firstMatch (P.zip T) f with
  | none => simp [rewriteFact, hfm]
  | some tb =>
      obtain ⟨tmpl, b⟩ := tb
      have htT : tmpl ∈ T := by
        obtain ⟨pat, hmem⟩ := firstMatch_some_mem f tmpl b (P.zip T) hfm
        exact (List.of_mem_zip hmem).2
      have hall : ∀ r ∈ P.zip T, matchPat r.1 (instantiate tmpl b) = none := by
        intro r hr
        obtain ⟨p2, t2⟩ := r
        have hpP : p2 ∈ P := (List.of_mem_zip hr).1
        exact shapeDisjoint_no_match p2 tmpl
          (disjointAll_spec h p2 hpP tmpl htT) b
      have hnone : firstMatch (P.zip T) (instantiate tmpl b) = none :=
        firstMatch_none_of_all (instantiate tmpl b) (P.zip T) hall
      simp [rewriteFact, hfm, hnone]

lemma transformSet_idem (P T : List Fact) (h : disjointAll P T = true)
    (S : Finset Fact) : transformSet P T (transformSet P T S) = transformSet P T S := by
  rw [transformSet, transformSet, Finset.image_image]
  exact Finset.image_congr fun x _ => rewriteFact_idem P T h x

/-- Claim C7: when every pattern of `P` is shape-disjoint from every template
of `T`, a completed `transform(P, T)` pass leaves no stored fact rewritable
by the identical rule, so applying the same transform a second time is a
no-op on the fact set and on the namespace's store. -/
theorem transform_twice_noop (P T : List Fact) (S : Finset Fact) (p : Path)
    (st : Store) (hd : disjointAll P T = true) :
    transformSet P T (transformSet P T S) = transformSet P T S ∧
    transformStore p P T (transformStore p P T st) = transformStore p P T st := by
  refine ⟨transformSet_idem P T hd S, ?_⟩
  funext q
  by_cases hq : q = p
  · subst hq
    simp [transformStore, transformSet_idem P T hd]
  · simp [transformStore, hq]

/-- Witness for C7 at the rule `(foo $x) -> (baz $x)` of demo 4 and a
concrete three-fact set. -/
theorem transform_twice_noop_witness :
    disjointAll patW tmplW = true ∧
    (transformSet patW tmplW (transformSet patW tmplW setW) =
       transformSet patW tmplW setW ∧
     transformStore pW patW tmplW (transformStore pW patW tmplW stEmpty) =
       transformStore pW patW tmplW stEmpty) :=
  ⟨by decide, transform_twice_noop patW tmplW setW pW stEmpty (by decide)⟩

/-! Lemmas on the demo runner trace, towards C8. -/

lemma callsOf_append (a b : List RunEvent) :
    callsOf (a ++ b) = callsOf a ++ callsOf b := by
  simp [callsOf, List.filterMap_append]

lemma callsOf_demoTrace (f : String → Except String Unit) (d : String) :
    callsOf (demoTrace f d) = [d] := by
  cases hfd : f d <;> simp [demoTrace, callsOf, hfd]

lemma callsOf_runDemos (f : String → Except String Unit) :
    ∀ ds : List String, callsOf (runDemos f ds) = ds := by
  intro ds
  induction ds with
  | nil => rfl
  | cons d rest ih =>
      show callsOf (demoTrace f d ++ runDemos f rest) = d :: rest
      rw [callsOf_append, callsOf_demoTrace, ih]
      rfl

lemma stripFailures_append (a b : List RunEvent) :
    stripFailures (a ++ b) = stripFailures a ++ stripFailures b := by
  simp [stripFailures, List.filter_append]

lemma stripFailures_demoTrace (f : String → Except String Unit) (d : String) :
    stripFailures (demoTrace f d) = [RunEvent.call d, RunEvent.sleep 350] := by
  cases hfd : f d <;> simp [demoTrace, stripFailures, hfd]

lemma stripFailures_runDemos (f : String → Except String Unit) :
    ∀ ds : List String,
      stripFailures (runDemos f ds) =
        (ds.map fun d => [RunEvent.call d, RunEvent.sleep 350]).flatten := by
  intro ds
  induction ds with
  | nil => rfl
  | cons d rest ih =>
      show stripFailures (demoTrace f d ++ runDemos f rest) = _
      rw [stripFailures_append, stripFailures_demoTrace, ih]
      rfl

lemma printFailure_mem_runDemos (f : String → Except String Unit) (d e : String) :
    ∀ ds : List String,
      (RunEvent.printFailure d e ∈ runDemos f ds ↔
        d ∈ ds ∧ f d = Except.error e) := by
  intro ds
  induction ds with
  | nil => simp [runDemos]
  | cons d0 rest ih =>
      show RunEvent.printFailure d e ∈ demoTrace f d0 ++ runDemos f rest ↔ _
      rw [List.mem_append]
      constructor
      · rintro (hm | hm)
        · cases hfd : f d0 with
          | ok u => simp [demoTrace, hfd] at hm
          | error e0 =>
              simp only [demoTrace, hfd] at hm
              simp only [List.cons_append, List.nil_append, List.mem_cons,
                List.mem_singleton] at hm
              rcases hm with hm | hm | hm
              · exact absurd hm (by simp)
              · have hd0 : d = d0 := by
                  injection hm with h1 h2
                have he0 : e = e0 := by
                  injection hm with h1 h2
                subst hd0; subst he0
                exact ⟨List.mem_cons_self _ _, hfd⟩
              · exact absurd hm (by simp)
        · obtain ⟨hmem, hfe⟩ := ih.mp hm
          exact ⟨List.mem_cons_of_mem _ hmem, hfe⟩
      · rintro ⟨hmem, hfe⟩
        rcases List.mem_cons.mp hmem with hd0 | htail
        · subst hd0
          left
          simp [demoTrace, hfe]
        · right
          exact ih.mpr ⟨htail, hfe⟩

/-- Claim C8: `run_all` attempts all twelve demos of its list, in listed
order, never letting a demo's exception escape: whatever outcome each demo
has, the trace consists of one call per demo each followed by a 0.35-second
sleep (350 ms), with a failure print, naming the demo, inserted between a
failing demo's call and its sleep — and a failure print appears exactly for
the demos that failed. -/
theorem run_all_behavior (f : String → Except String Unit) (d e : String) :
    demoList.length = 12 ∧
    callsOf (run_all f) = demoList ∧
    stripFailures (run_all f) =
      (demoList.map fun x => [RunEvent.call x, RunEvent.sleep 350]).flatten ∧
    ((RunEvent.printFailure d e ∈ run_all f) =
      (d ∈ demoList ∧ f d = Except.error e)) :=
  ⟨rfl, callsOf_runDemos f demoList, stripFailures_runDemos f demoList,
   propext (printFailure_mem_runDemos f d e demoList)⟩

/-- Claim C9: a full execution of `run_all` never issues a stop request: the
twelve demo bodies of the suite, whose request kinds are read off the source,
issue no request of kind `stop` (the only `stop()` call in the source, inside
`demo_10_clear_and_stop_server`, is commented out). -/
theorem run_all_never_stops :
    demoSuite.map Prod.fst = demoList ∧
    ReqKind.stop ∉ (demoSuite.map Prod.snd).flatten :=
  ⟨rfl, by decide⟩

/-- Counterexample to claim C10 as stated: `safe_print` is not total for
every payload value — for a payload whose `.data` access raises and whose own
printing (its string conversion) also raises, the except branch's
`print(payload)` re-raises and the exception escapes `safe_print`. -/
theorem safe_print_can_raise :
    safe_print "title"
        (some { printData := Except.error "AttributeError",
                printSelf := Except.error "str raised" }) =
      Except.error "str raised" := rfl

/-- Claim C10 as amended: `safe_print` prints the literal `"(None)"` when the
payload is None; otherwise prints `payload.data` when accessing and printing
it succeeds; on an exception there it falls back to printing the payload
itself — and it never raises except when that fallback printing itself
raises, in which case that exception propagates. -/
theorem safe_print_amended (t : String) (q r w : Payload) (dat s em em2 e2 : String)
    (hq : q.printData = Except.ok dat)
    (hr1 : r.printData = Except.error em) (hr2 : r.printSelf = Except.ok s)
    (hw1 : w.printData = Except.error em2) (hw2 : w.printSelf = Except.error e2) :
    safe_print t none = Except.ok [eqSep, t, dashSep, "(None)", eqSep] ∧
    safe_print t (some q) = Except.ok [eqSep, t, dashSep, dat, eqSep] ∧
    safe_print t (some r) = Except.ok [eqSep, t, dashSep, s, eqSep] ∧
    safe_print t (some w) = Except.error e2 := by
  refine ⟨rfl, ?_, ?_, ?_⟩
  · simp [safe_print, hq]
  · simp [safe_print, hr1, hr2]
  · simp [safe_print, hw1, hw2]

/-- Witness for the amended C10 at concrete payloads covering the successful
`.data` print, the successful fallback, and the raising fallback. -/
theorem safe_print_amended_witness :
    ({ printData := Except.ok "payload data",
       printSelf := Except.ok "repr" } : Payload).printData =
        Except.ok "payload data" ∧
    (safe_print "t" none = Except.ok [eqSep, "t", dashSep, "(None)", eqSep] ∧
     safe_print "t" (some { printData := Except.ok "payload data",
                            printSelf := Except.ok "repr" }) =
       Except.ok [eqSep, "t", dashSep, "payload data", eqSep] ∧
     safe_print "t" (some { printData := Except.error "AttributeError",
                            printSelf := Except.ok "fallback repr" }) =
       Except.ok [eqSep, "t", dashSep, "fallback repr", eqSep] ∧
     safe_print "t" (some { printData := Except.error "AttributeError",
                            printSelf := Except.error "str raised" }) =
       Except.error "str raised") :=
  ⟨rfl, safe_print_amended "t"
    { printData := Except.ok "payload data", printSelf := Except.ok "repr" }
    { printData := Except.error "AttributeError",
      printSelf := Except.ok "fallback repr" }
    { printData := Except.error "AttributeError",
      printSelf := Except.error "str raised" }
    "payload data" "fallback repr" "AttributeError" "AttributeError" "str raised"
    rfl rfl rfl rfl rfl⟩

end MorkSpec
